import Mathlib

/-!
# Verification of the image indexing and search service (`app.py`)

Shallow embedding of the indexing/search pipeline:

* filesystem paths are modelled by `FsPath` (directory components relative to
  the scanned root, a stem, and an extension — Python's `Path.with_suffix`
  replaces the extension component);
* file contents are modelled as a partial map `FsPath → Option String`
  (`none` = absent or unreadable);
* the embedding capability is a parameter `embed : FsPath → Option (List ℚ)`
  (`embed_image` catches all failures internally and returns `None`, modelled
  as `none`);
* wall-clock readings (`time.time()`) are supplied by a parameter
  `clock : ℕ → ℚ`: `clock 0` is the reading stored as `start_time` and
  `clock (idx+1)` the reading used by the ETA update after item `idx`;
* floats are modelled as rationals.

The background job `index_images_background`, the HTTP handlers
`start_indexing` and `search`, and the helpers `read_description` and
`estimate_time_remaining` are translated line by line from the source.
-/

/-- A filesystem path: directory components relative to the scanned root,
a stem, and an extension (including the dot, e.g. `".jpg"`). -/
structure FsPath where
  dirs : List String
  stem : String
  ext : String
deriving DecidableEq, Repr

/-- Python's `Path.with_suffix`: replace the extension. -/
def FsPath.withSuffix (p : FsPath) (s : String) : FsPath :=
  { p with ext := s }

/-- Python's `Path.name`: the final component. -/
def FsPath.filename (p : FsPath) : String :=
  p.stem ++ p.ext

/-- `image_folder.glob("*" ++ ext)`: non-recursive match directly under the root. -/
def glob (fs : List FsPath) (ext : String) : List FsPath :=
  fs.filter (fun p => p.dirs.isEmpty && p.ext == ext)

/-- `image_folder.rglob("*" ++ ext)`: recursive match anywhere under the root. -/
def rglob (fs : List FsPath) (ext : String) : List FsPath :=
  fs.filter (fun p => p.ext == ext)

/-- The scan at the top of `index_images_background`: three non-recursive
globs, three recursive globs, then `list(set(...))` (modelled by
`List.dedup`; the spec leaves the ordering unspecified). -/
def image_files (fs : List FsPath) : List FsPath :=
  (glob fs ".jpg" ++ glob fs ".jpeg" ++ glob fs ".png"
    ++ rglob fs ".jpg" ++ rglob fs ".jpeg" ++ rglob fs ".png").dedup

/-- Python's `str.strip()`: drop whitespace from both ends. -/
def pyStrip (s : String) : String :=
  String.mk (((s.data.dropWhile Char.isWhitespace).reverse.dropWhile
    Char.isWhitespace).reverse)

/-- `read_description`: read the file, strip whitespace, fall back to the
sentinel on absence/unreadability (`none`) or emptiness.  Total: never
raises. -/
def read_description (fsRead : FsPath → Option String) (txt_path : FsPath) : String :=
  match fsRead txt_path with
  | none => "No description"
  | some raw =>
    let content := pyStrip raw
    if content = "" then "No description" else content

/-- Python `int()` applied to a nonnegative-or-negative rational: truncation
toward zero. -/
def pyInt (q : ℚ) : ℤ :=
  if 0 ≤ q then ⌊q⌋ else -⌊-q⌋

/-- Python `%` on floats: `q - m * ⌊q / m⌋`. -/
def pyMod (q m : ℚ) : ℚ :=
  q - m * ⌊q / m⌋

/-- `estimate_time_remaining(progress, total, start_time)`; `elapsed`
stands for `time.time() - start_time`. -/
def estimate_time_remaining (progress total : ℕ) (elapsed : ℚ) : String :=
  if progress = 0 then
    "Calculating..."
  else
    let rate : ℚ := (progress : ℚ) / elapsed
    let remaining : ℚ := ((total : ℚ) - (progress : ℚ)) / rate
    if remaining < 60 then
      toString (pyInt remaining) ++ "s remaining"
    else if remaining < 3600 then
      toString (pyInt (remaining / 60)) ++ "m remaining"
    else
      toString (pyInt (remaining / 3600)) ++ "h "
        ++ toString (pyInt (pyMod remaining 3600 / 60)) ++ "m remaining"

/-- The `indexing_status` global dict. -/
structure IndexingStatus where
  is_indexing : Bool
  progress : ℕ
  total : ℕ
  message : String
  start_time : Option ℚ
  estimated_time : Option String
deriving DecidableEq, Repr

/-- The module-level initial value of `indexing_status`. -/
def initialStatus : IndexingStatus :=
  { is_indexing := false, progress := 0, total := 0, message := ""
  , start_time := none, estimated_time := none }

/-- A point as built in the indexing loop (`PointStruct(id=idx, ...)`). -/
structure PointStruct where
  id : ℕ
  vector : List ℚ
  filename : String
  path : FsPath
  description : String
  folder : List String
deriving DecidableEq, Repr

/-- The point built for item `image_file` at enumeration index `idx`. -/
def mkPoint (fsRead : FsPath → Option String) (idx : ℕ) (image_file : FsPath)
    (embedding : List ℚ) : PointStruct :=
  { id := idx
  , vector := embedding
  , filename := image_file.filename
  , path := image_file
  , description := read_description fsRead (image_file.withSuffix ".txt")
  , folder := image_file.dirs }

/-- `batch_size = 100`. -/
def batch_size : ℕ := 100

/-- The mutable state of one run of `index_images_background`: the status
dict, the pending `points` batch, the batches upserted so far (in upsert
order), and the `errors` counter. -/
structure RunState where
  status : IndexingStatus
  points : List PointStruct
  batches : List (List PointStruct)
  errors : ℕ
deriving Repr

/-- One iteration of the `for idx, image_file in enumerate(image_files)`
loop: read the sidecar description, embed; on embed failure bump `errors`
and `continue` (no point appended, no progress update); on success append
the point, flush when the batch reaches `batch_size`, then update
`progress`, the ETA estimate, and the message. -/
def processItem (embed : FsPath → Option (List ℚ)) (fsRead : FsPath → Option String)
    (clock : ℕ → ℚ) (total : ℕ) (st : RunState) (idx : ℕ) (image_file : FsPath) : RunState :=
  match embed image_file with
  | none => { st with errors := st.errors + 1 }
  | some embedding =>
    let pts := st.points ++ [mkPoint fsRead idx image_file embedding]
    { st with
      points := if batch_size ≤ pts.length then [] else pts
    , batches := if batch_size ≤ pts.length then st.batches ++ [pts] else st.batches
    , status := { st.status with
        progress := idx + 1
      , estimated_time :=
          some (estimate_time_remaining (idx + 1) total (clock (idx + 1) - clock 0))
      , message := "Processed " ++ toString (idx + 1) ++ "/" ++ toString total
          ++ " images" } }

/-- The item loop, structurally recursive over the enumerated file list. -/
def runLoop (embed : FsPath → Option (List ℚ)) (fsRead : FsPath → Option String)
    (clock : ℕ → ℚ) (total : ℕ) : RunState → List (ℕ × FsPath) → RunState
  | st, [] => st
  | st, p :: rest =>
    runLoop embed fsRead clock total (processItem embed fsRead clock total st p.1 p.2) rest

/-- The status updates right after the scan (`indexing_status["total"] = ...`
through `indexing_status["message"] = f"Found ..."`); `t` is the
`time.time()` reading stored as `start_time`. -/
def startStatus (st0 : IndexingStatus) (n : ℕ) (t : ℚ) : IndexingStatus :=
  { st0 with
    total := n, progress := 0, start_time := some t,
    message := "Found " ++ toString n ++ " images" }

/-- The code after the loop: flush any non-empty remaining batch
(`if points: client.upsert(...)`), clear `is_indexing` and set the
completion message with `success_count = len(image_files) - errors`. -/
def finishRun (n : ℕ) (looped : RunState) : RunState :=
  let flushed := if looped.points.isEmpty then looped
    else { looped with batches := looped.batches ++ [looped.points], points := [] }
  let success_count := n - flushed.errors
  { flushed with status := { flushed.status with
      is_indexing := false
    , message := "✅ Completed! Indexed " ++ toString success_count ++ " images ("
        ++ toString flushed.errors ++ " errors)" } }

/-- `index_images_background(image_folder)`: scan, initialise the status
fields, run the per-item loop over `enumerate(image_files)`, then flush and
finish. -/
def index_images_background (embed : FsPath → Option (List ℚ))
    (fsRead : FsPath → Option String) (clock : ℕ → ℚ)
    (fs : List FsPath) (st0 : IndexingStatus) : RunState :=
  let files := image_files fs
  let n := files.length
  finishRun n (runLoop embed fsRead clock n
    { status := startStatus st0 n (clock 0), points := [], batches := [], errors := 0 }
    (List.enumFrom 0 files))

/-- All points upserted by a run, in upsert order. -/
def flushedPoints (st : RunState) : List PointStruct :=
  st.batches.flatten

/-- The points the loop should produce: one per successfully embedded item,
carrying its enumeration index as id. -/
def successFrom (embed : FsPath → Option (List ℚ)) (fsRead : FsPath → Option String)
    (l : List (ℕ × FsPath)) : List PointStruct :=
  l.filterMap (fun p => (embed p.2).map (mkPoint fsRead p.1 p.2))

/-- `client.upsert(..., points=pts)` against a store keyed by id:
insert-or-overwrite each point by its id, in order. -/
def upsertPoints (store : ℕ → Option PointStruct) (pts : List PointStruct) :
    ℕ → Option PointStruct :=
  pts.foldl (fun s pt => fun j => if j = pt.id then some pt else s j) store

/-- The effect of a whole run's upserts on a store. -/
def runUpserts (store : ℕ → Option PointStruct) (st : RunState) :
    ℕ → Option PointStruct :=
  st.batches.foldl upsertPoints store

/-- Responses of the `/api/index` POST handler. -/
inductive StartResponse where
  | conflict (body : String)
  | notFound (body : String)
  | ok (message : String) (status : IndexingStatus)
deriving DecidableEq, Repr

/-- The status dict written by `start_indexing` on the accepted path
("Reset status"). -/
def resetStatus : IndexingStatus :=
  { is_indexing := true, progress := 0, total := 0
  , message := "Starting indexing...", start_time := none, estimated_time := none }

/-- `start_indexing()`: reject with 400 while a job is running; 404 when the
folder does not exist; otherwise reset the status, launch the background
thread and return 200.  Result: (response, new `indexing_status`, whether a
background thread was launched). -/
def start_indexing (folderExists : String → Bool) (st : IndexingStatus)
    (folderArg : Option String) : StartResponse × IndexingStatus × Bool :=
  if st.is_indexing then
    (.conflict "Indexing already in progress", st, false)
  else
    let image_folder := folderArg.getD "./scraped_images"
    if folderExists image_folder then
      (.ok "Indexing started" resetStatus, resetStatus, true)
    else
      (.notFound ("Folder not found: " ++ image_folder), st, false)

/-- A raw hit returned by `client.search` (payload fields as stored, the
optional ones read back with `.get`). -/
structure Hit where
  score : ℚ
  filename : String
  path : String
  description : Option String
  folder : Option String
deriving DecidableEq, Repr

/-- A formatted result as built in the `search` handler. -/
structure FormattedHit where
  score : ℚ
  filename : String
  path : String
  description : String
  folder : String
deriving DecidableEq, Repr

/-- The per-hit formatting in `search` (`payload.get` defaults). -/
def format_result (h : Hit) : FormattedHit :=
  { score := h.score, filename := h.filename, path := h.path
  , description := h.description.getD "No description"
  , folder := h.folder.getD "" }

/-- Responses of the `/api/search` POST handler. -/
inductive SearchResponse where
  | badRequest (body : String)
  | ok (query : String) (results : List FormattedHit) (count : ℕ)
deriving DecidableEq, Repr

/-- `search()`: empty query is rejected with 400 before any model or store
call; otherwise the query is embedded and the store searched.  Result:
(response, number of embedding calls made, number of store searches made). -/
def search (embedText : String → List ℚ) (storeSearch : List ℚ → ℕ → List Hit)
    (queryArg : Option String) (topKArg : Option ℕ) : SearchResponse × ℕ × ℕ :=
  let query := queryArg.getD ""
  let top_k := topKArg.getD 12
  if query = "" then
    (.badRequest "Query is required", 0, 0)
  else
    let text_features := embedText query
    let results := storeSearch text_features top_k
    let formatted_results := results.map format_result
    (.ok query formatted_results formatted_results.length, 1, 1)

/-! ## Concrete fixtures (used by witness and counterexample theorems) -/

/-- A tiny scanned tree: two images at the root, one in a subdirectory. -/
def wFs : List FsPath :=
  [⟨[], "a", ".jpg"⟩, ⟨["sub"], "b", ".png"⟩, ⟨[], "c", ".jpeg"⟩]

/-- Sidecar contents: `a.txt` holds text with surrounding whitespace,
`c.txt` holds only whitespace, everything else is absent/unreadable. -/
def wRead : FsPath → Option String := fun p =>
  if p = ⟨[], "a", ".txt"⟩ then some "  hello "
  else if p = ⟨[], "c", ".txt"⟩ then some "   "
  else none

/-- An embedding that fails exactly on the image with stem `"c"`. -/
def wEmbed : FsPath → Option (List ℚ) := fun p =>
  if p.stem = "c" then none else some [1, 0]

/-- An embedding that always fails. -/
def wEmbedFail : FsPath → Option (List ℚ) := fun _ => none

/-- A clock advancing one unit per reading. -/
def wClock : ℕ → ℚ := fun i => i

/-- An empty vector store. -/
def wStore : ℕ → Option PointStruct := fun _ => none

/-- A one-file tree whose only (hence last) item fails to embed. -/
def cexFs : List FsPath := [⟨[], "a", ".jpg"⟩]

/-- A filesystem-existence oracle that accepts every folder. -/
def wExists : String → Bool := fun _ => true

/-- A filesystem-existence oracle that rejects every folder. -/
def wNotExists : String → Bool := fun _ => false

/-- A status snapshot of a job in mid-run. -/
def wRunningStatus : IndexingStatus :=
  { is_indexing := true, progress := 5, total := 9,
    message := "Processed 5/9 images",
    start_time := some 3, estimated_time := some "4s remaining" }

/-- A text-embedding stub. -/
def wEmbedText : String → List ℚ := fun _ => [1, 0]

/-- A store-search stub. -/
def wStoreSearch : List ℚ → ℕ → List Hit := fun _ _ => []

/-! ## Loop invariants of the indexing run -/

section RunLemmas

variable (embed : FsPath → Option (List ℚ)) (fsRead : FsPath → Option String)
variable (clock : ℕ → ℚ)

lemma processItem_total (total : ℕ) (st : RunState) (idx : ℕ) (f : FsPath) :
    (processItem embed fsRead clock total st idx f).status.total = st.status.total := by
  cases h : embed f <;> simp [processItem, h]

lemma processItem_start_time (total : ℕ) (st : RunState) (idx : ℕ) (f : FsPath) :
    (processItem embed fsRead clock total st idx f).status.start_time
      = st.status.start_time := by
  cases h : embed f <;> simp [processItem, h]

lemma processItem_is_indexing (total : ℕ) (st : RunState) (idx : ℕ) (f : FsPath) :
    (processItem embed fsRead clock total st idx f).status.is_indexing
      = st.status.is_indexing := by
  cases h : embed f <;> simp [processItem, h]

lemma processItem_some_progress (total : ℕ) (st : RunState) (idx : ℕ) (f : FsPath)
    (h : (embed f).isSome = true) :
    (processItem embed fsRead clock total st idx f).status.progress = idx + 1 := by
  obtain ⟨v, hv⟩ := Option.isSome_iff_exists.mp h
  simp [processItem, hv]

lemma runLoop_total (total : ℕ) :
    ∀ (l : List (ℕ × FsPath)) (st : RunState),
      (runLoop embed fsRead clock total st l).status.total = st.status.total := by
  intro l
  induction l with
  | nil => intro st; rfl
  | cons p rest ih =>
    intro st
    calc (runLoop embed fsRead clock total
            (processItem embed fsRead clock total st p.1 p.2) rest).status.total
        = (processItem embed fsRead clock total st p.1 p.2).status.total := ih _
      _ = st.status.total := processItem_total embed fsRead clock total st p.1 p.2

lemma runLoop_start_time (total : ℕ) :
    ∀ (l : List (ℕ × FsPath)) (st : RunState),
      (runLoop embed fsRead clock total st l).status.start_time
        = st.status.start_time := by
  intro l
  induction l with
  | nil => intro st; rfl
  | cons p rest ih =>
    intro st
    exact (ih _).trans (processItem_start_time embed fsRead clock total st p.1 p.2)

lemma runLoop_errors (total : ℕ) :
    ∀ (l : List (ℕ × FsPath)) (st : RunState),
      (runLoop embed fsRead clock total st l).errors
        = st.errors + l.countP (fun p => (embed p.2).isNone) := by
  intro l
  induction l with
  | nil => intro st; simp [runLoop]
  | cons p rest ih =>
    intro st
    have hstep : runLoop embed fsRead clock total st (p :: rest)
        = runLoop embed fsRead clock total
            (processItem embed fsRead clock total st p.1 p.2) rest := rfl
    rw [hstep, ih, List.countP_cons]
    cases h : embed p.2 with
    | none =>
      have herr : (processItem embed fsRead clock total st p.1 p.2).errors
          = st.errors + 1 := by simp [processItem, h]
      simp [herr, h]
      omega
    | some v =>
      have herr : (processItem embed fsRead clock total st p.1 p.2).errors
          = st.errors := by simp [processItem, h]
      simp [herr, h]

lemma successFrom_nil : successFrom embed fsRead [] = [] := rfl

lemma successFrom_cons_none (p : ℕ × FsPath) (rest : List (ℕ × FsPath))
    (h : embed p.2 = none) :
    successFrom embed fsRead (p :: rest) = successFrom embed fsRead rest := by
  simp [successFrom, List.filterMap_cons, h]

lemma successFrom_cons_some (p : ℕ × FsPath) (rest : List (ℕ × FsPath))
    (v : List ℚ) (h : embed p.2 = some v) :
    successFrom embed fsRead (p :: rest)
      = mkPoint fsRead p.1 p.2 v :: successFrom embed fsRead rest := by
  simp [successFrom, List.filterMap_cons, h]

lemma runLoop_flushed (total : ℕ) :
    ∀ (l : List (ℕ × FsPath)) (st : RunState),
      (runLoop embed fsRead clock total st l).batches.flatten
          ++ (runLoop embed fsRead clock total st l).points
        = st.batches.flatten ++ st.points ++ successFrom embed fsRead l := by
  intro l
  induction l with
  | nil => intro st; simp [runLoop, successFrom]
  | cons p rest ih =>
    intro st
    cases h : embed p.2 with
    | none =>
      have step : processItem embed fsRead clock total st p.1 p.2
          = { st with errors := st.errors + 1 } := by simp [processItem, h]
      calc (runLoop embed fsRead clock total st (p :: rest)).batches.flatten
            ++ (runLoop embed fsRead clock total st (p :: rest)).points
          = { st with errors := st.errors + 1 }.batches.flatten
              ++ { st with errors := st.errors + 1 }.points
              ++ successFrom embed fsRead rest := by
            simp only [runLoop, step]; exact ih _
        _ = st.batches.flatten ++ st.points ++ successFrom embed fsRead (p :: rest) := by
            simp [successFrom_cons_none embed fsRead p rest h]
    | some v =>
      have hstep := ih (processItem embed fsRead clock total st p.1 p.2)
      have hbp : (processItem embed fsRead clock total st p.1 p.2).batches.flatten
          ++ (processItem embed fsRead clock total st p.1 p.2).points
          = st.batches.flatten ++ st.points ++ [mkPoint fsRead p.1 p.2 v] := by
        by_cases hb : batch_size ≤ st.points.length + 1
        · simp [processItem, h, hb, List.flatten_append]
        · simp [processItem, h, hb, List.append_assoc]
      calc (runLoop embed fsRead clock total st (p :: rest)).batches.flatten
            ++ (runLoop embed fsRead clock total st (p :: rest)).points
          = (processItem embed fsRead clock total st p.1 p.2).batches.flatten
              ++ (processItem embed fsRead clock total st p.1 p.2).points
              ++ successFrom embed fsRead rest := by
            simp only [runLoop]; exact hstep
        _ = st.batches.flatten ++ st.points
              ++ successFrom embed fsRead (p :: rest) := by
            rw [hbp, successFrom_cons_some embed fsRead p rest v h]
            simp

end RunLemmas

section RunLemmas2

variable (embed : FsPath → Option (List ℚ)) (fsRead : FsPath → Option String)
variable (clock : ℕ → ℚ)

lemma runLoop_progress_last (total : ℕ) :
    ∀ (files : List FsPath) (k : ℕ) (st : RunState) (f : FsPath),
      files.getLast? = some f → (embed f).isSome = true →
      (runLoop embed fsRead clock total st (List.enumFrom k files)).status.progress
        = k + files.length := by
  intro files
  induction files with
  | nil => intro k st f h; simp at h
  | cons a rest ih =>
    intro k st f hlast hsome
    cases rest with
    | nil =>
      have hfa : f = a := by
        simp [List.getLast?] at hlast
        exact hlast.symm
      subst hfa
      have : runLoop embed fsRead clock total st (List.enumFrom k [f])
          = processItem embed fsRead clock total st k f := rfl
      rw [this, processItem_some_progress embed fsRead clock total st k f hsome]
      simp
    | cons b t =>
      have hlast' : (b :: t).getLast? = some f := by
        rw [List.getLast?_cons_cons] at hlast
        exact hlast
      have hstep : runLoop embed fsRead clock total st (List.enumFrom k (a :: b :: t))
          = runLoop embed fsRead clock total
              (processItem embed fsRead clock total st k a)
              (List.enumFrom (k + 1) (b :: t)) := rfl
      rw [hstep, ih (k + 1) _ f hlast' hsome]
      simp
      omega

lemma successFrom_ids_ge :
    ∀ (files : List FsPath) (k : ℕ) (pt : PointStruct),
      pt ∈ successFrom embed fsRead (List.enumFrom k files) → k ≤ pt.id := by
  intro files
  induction files with
  | nil => intro k pt h; simp [successFrom] at h
  | cons a rest ih =>
    intro k pt hmem
    have hstep : List.enumFrom k (a :: rest) = (k, a) :: List.enumFrom (k + 1) rest := rfl
    rw [hstep] at hmem
    cases h : embed a with
    | none =>
      rw [successFrom_cons_none embed fsRead (k, a) _ h] at hmem
      exact le_of_lt (lt_of_lt_of_le (Nat.lt_succ_self k) (ih (k + 1) pt hmem))
    | some v =>
      rw [successFrom_cons_some embed fsRead (k, a) _ v h] at hmem
      rcases List.mem_cons.mp hmem with heq | hmem2
      · subst heq; simp [mkPoint]
      · exact le_of_lt (lt_of_lt_of_le (Nat.lt_succ_self k) (ih (k + 1) pt hmem2))

lemma successFrom_ids_nodup :
    ∀ (files : List FsPath) (k : ℕ),
      ((successFrom embed fsRead (List.enumFrom k files)).map PointStruct.id).Nodup := by
  intro files
  induction files with
  | nil => intro k; simp [successFrom]
  | cons a rest ih =>
    intro k
    have hstep : List.enumFrom k (a :: rest) = (k, a) :: List.enumFrom (k + 1) rest := rfl
    rw [hstep]
    cases h : embed a with
    | none =>
      rw [successFrom_cons_none embed fsRead (k, a) _ h]
      exact ih (k + 1)
    | some v =>
      rw [successFrom_cons_some embed fsRead (k, a) _ v h]
      refine List.Nodup.cons ?_ (ih (k + 1))
      intro hmem
      rcases List.mem_map.mp hmem with ⟨pt, hpt, hid⟩
      have := successFrom_ids_ge embed fsRead rest (k + 1) pt hpt
      have hk : (mkPoint fsRead k a v).id = k := rfl
      rw [hk] at hid
      omega

lemma successFrom_ids_eq :
    ∀ (l : List (ℕ × FsPath)),
      (successFrom embed fsRead l).map PointStruct.id
        = (l.filter (fun p => (embed p.2).isSome)).map Prod.fst := by
  intro l
  induction l with
  | nil => rfl
  | cons p rest ih =>
    cases h : embed p.2 with
    | none =>
      rw [successFrom_cons_none embed fsRead p rest h]
      simp [List.filter_cons, h, ih]
    | some v =>
      rw [successFrom_cons_some embed fsRead p rest v h]
      simp [List.filter_cons, h, mkPoint, ih]

lemma successFrom_mem_spec :
    ∀ (files : List FsPath) (k : ℕ) (pt : PointStruct),
      pt ∈ successFrom embed fsRead (List.enumFrom k files) →
      ∃ j f v, files[j]? = some f ∧ pt.id = k + j ∧ embed f = some v
        ∧ pt = mkPoint fsRead pt.id f v := by
  intro files
  induction files with
  | nil => intro k pt h; simp [successFrom] at h
  | cons a rest ih =>
    intro k pt hmem
    have hstep : List.enumFrom k (a :: rest) = (k, a) :: List.enumFrom (k + 1) rest := rfl
    rw [hstep] at hmem
    cases h : embed a with
    | none =>
      rw [successFrom_cons_none embed fsRead (k, a) _ h] at hmem
      obtain ⟨j, f, v, hj, hid, hv, hpt⟩ := ih (k + 1) pt hmem
      exact ⟨j + 1, f, v, by simpa using hj, by omega, hv, hpt⟩
    | some v =>
      rw [successFrom_cons_some embed fsRead (k, a) _ v h] at hmem
      rcases List.mem_cons.mp hmem with heq | hmem2
      · refine ⟨0, a, v, by simp, ?_, h, ?_⟩
        · subst heq; simp [mkPoint]
        · subst heq; rfl
      · obtain ⟨j, f, v2, hj, hid, hv, hpt⟩ := ih (k + 1) pt hmem2
        exact ⟨j + 1, f, v2, by simpa using hj, by omega, hv, hpt⟩

lemma successFrom_length :
    ∀ (files : List FsPath) (k : ℕ),
      (successFrom embed fsRead (List.enumFrom k files)).length
        = (files.filter (fun f => (embed f).isSome)).length := by
  intro files
  induction files with
  | nil => intro k; rfl
  | cons a rest ih =>
    intro k
    have hstep : List.enumFrom k (a :: rest) = (k, a) :: List.enumFrom (k + 1) rest := rfl
    rw [hstep]
    cases h : embed a with
    | none =>
      rw [successFrom_cons_none embed fsRead (k, a) _ h]
      simp [List.filter_cons, h, ih (k + 1)]
    | some v =>
      rw [successFrom_cons_some embed fsRead (k, a) _ v h]
      simp [List.filter_cons, h, ih (k + 1)]

lemma enumFrom_countP_isNone :
    ∀ (files : List FsPath) (k : ℕ),
      (List.enumFrom k files).countP (fun p => (embed p.2).isNone)
        = files.countP (fun f => (embed f).isNone) := by
  intro files
  induction files with
  | nil => intro k; rfl
  | cons a rest ih =>
    intro k
    have hstep : List.enumFrom k (a :: rest) = (k, a) :: List.enumFrom (k + 1) rest := rfl
    rw [hstep, List.countP_cons, List.countP_cons, ih (k + 1)]

lemma countP_isSome_add_isNone :
    ∀ (files : List FsPath),
      files.countP (fun f => (embed f).isSome)
        + files.countP (fun f => (embed f).isNone) = files.length := by
  intro files
  induction files with
  | nil => rfl
  | cons a rest ih =>
    rw [List.countP_cons, List.countP_cons]
    cases h : embed a <;> simp [h] <;> omega

end RunLemmas2

/-! ## Upsert semantics -/

lemma upsertPoints_append (store : ℕ → Option PointStruct)
    (l1 l2 : List PointStruct) :
    upsertPoints store (l1 ++ l2) = upsertPoints (upsertPoints store l1) l2 :=
  List.foldl_append ..

lemma runUpserts_eq_flatten (store : ℕ → Option PointStruct) (st : RunState) :
    runUpserts store st = upsertPoints store (flushedPoints st) := by
  unfold runUpserts flushedPoints
  induction st.batches generalizing store with
  | nil => rfl
  | cons b bs ih =>
    rw [List.foldl_cons, ih, List.flatten_cons, upsertPoints_append]

lemma upsertPoints_not_mem (pts : List PointStruct) :
    ∀ (store : ℕ → Option PointStruct) (i : ℕ),
      (∀ pt ∈ pts, pt.id ≠ i) → upsertPoints store pts i = store i := by
  induction pts with
  | nil => intro store i _; rfl
  | cons q rest ih =>
    intro store i h
    rw [upsertPoints, List.foldl_cons]
    have := ih (fun j => if j = q.id then some q else store j) i
      (fun pt hpt => h pt (List.mem_cons_of_mem q hpt))
    rw [upsertPoints] at this
    rw [this]
    have hq : q.id ≠ i := h q (List.mem_cons_self q rest)
    exact if_neg (fun hc => hq hc.symm)

lemma upsertPoints_mem (pts : List PointStruct) :
    ∀ (store : ℕ → Option PointStruct) (pt : PointStruct),
      (pts.map PointStruct.id).Nodup → pt ∈ pts →
      upsertPoints store pts pt.id = some pt := by
  induction pts with
  | nil => intro store pt _ h; simp at h
  | cons q rest ih =>
    intro store pt hnd hmem
    rw [List.map_cons, List.nodup_cons] at hnd
    rw [upsertPoints, List.foldl_cons]
    rcases List.mem_cons.mp hmem with heq | hmem2
    · subst heq
      have hrest : ∀ r ∈ rest, r.id ≠ pt.id := by
        intro r hr hc
        exact hnd.1 (hc ▸ List.mem_map_of_mem PointStruct.id hr)
      have := upsertPoints_not_mem rest
        (fun j => if j = pt.id then some pt else store j) pt.id hrest
      rw [upsertPoints] at this
      rw [this]
      simp
    · exact ih _ pt hnd.2 hmem2

/-! ## Run-level facts -/

lemma finishRun_flatten (n : ℕ) (L : RunState) :
    (finishRun n L).batches.flatten = L.batches.flatten ++ L.points := by
  unfold finishRun
  by_cases h : L.points.isEmpty
  · have : L.points = [] := List.isEmpty_iff.mp h
    simp [h, this]
  · simp [h, List.flatten_append]

lemma finishRun_errors (n : ℕ) (L : RunState) :
    (finishRun n L).errors = L.errors := by
  unfold finishRun
  by_cases h : L.points.isEmpty <;> simp [h]

lemma finishRun_total (n : ℕ) (L : RunState) :
    (finishRun n L).status.total = L.status.total := by
  unfold finishRun
  by_cases h : L.points.isEmpty <;> simp [h]

lemma finishRun_progress (n : ℕ) (L : RunState) :
    (finishRun n L).status.progress = L.status.progress := by
  unfold finishRun
  by_cases h : L.points.isEmpty <;> simp [h]

lemma finishRun_start_time (n : ℕ) (L : RunState) :
    (finishRun n L).status.start_time = L.status.start_time := by
  unfold finishRun
  by_cases h : L.points.isEmpty <;> simp [h]

lemma finishRun_is_indexing (n : ℕ) (L : RunState) :
    (finishRun n L).status.is_indexing = false := by
  unfold finishRun
  by_cases h : L.points.isEmpty <;> simp [h]

section RunFacts

variable (embed : FsPath → Option (List ℚ)) (fsRead : FsPath → Option String)
variable (clock : ℕ → ℚ) (fs : List FsPath) (st0 : IndexingStatus)

lemma run_flushedPoints :
    flushedPoints (index_images_background embed fsRead clock fs st0)
      = successFrom embed fsRead (List.enumFrom 0 (image_files fs)) := by
  unfold index_images_background flushedPoints
  rw [finishRun_flatten]
  have := runLoop_flushed embed fsRead clock (image_files fs).length
    (List.enumFrom 0 (image_files fs))
    { status := startStatus st0 (image_files fs).length (clock 0),
      points := [], batches := [], errors := 0 }
  simpa using this

lemma run_errors :
    (index_images_background embed fsRead clock fs st0).errors
      = (image_files fs).countP (fun f => (embed f).isNone) := by
  unfold index_images_background
  rw [finishRun_errors]
  rw [runLoop_errors embed fsRead clock (image_files fs).length
    (List.enumFrom 0 (image_files fs)) _]
  simp [enumFrom_countP_isNone]

lemma run_total :
    (index_images_background embed fsRead clock fs st0).status.total
      = (image_files fs).length := by
  unfold index_images_background
  rw [finishRun_total]
  rw [runLoop_total embed fsRead clock (image_files fs).length
    (List.enumFrom 0 (image_files fs)) _]
  rfl

lemma run_start_time :
    (index_images_background embed fsRead clock fs st0).status.start_time
      = some (clock 0) := by
  unfold index_images_background
  rw [finishRun_start_time]
  rw [runLoop_start_time embed fsRead clock (image_files fs).length
    (List.enumFrom 0 (image_files fs)) _]
  rfl

lemma run_progress_last (f : FsPath) (hlast : (image_files fs).getLast? = some f)
    (hsome : (embed f).isSome = true) :
    (index_images_background embed fsRead clock fs st0).status.progress
      = (image_files fs).length := by
  unfold index_images_background
  rw [finishRun_progress]
  have := runLoop_progress_last embed fsRead clock (image_files fs).length
    (image_files fs) 0
    { status := startStatus st0 (image_files fs).length (clock 0),
      points := [], batches := [], errors := 0 } f hlast hsome
  simpa using this

end RunFacts

/-! ## Claim theorems -/

/-- **C2**: while a job is running (`is_indexing = true`) a start-indexing
request is rejected with the conflict response and performs no state change:
the returned `indexing_status` is exactly the old one (all counters and
fields unaltered) and no background thread is launched. -/
theorem start_indexing_conflict_no_mutation (folderExists : String → Bool)
    (st : IndexingStatus) (folderArg : Option String) (h : st.is_indexing = true) :
    start_indexing folderExists st folderArg
      = (.conflict "Indexing already in progress", st, false) := by
  simp [start_indexing, h]

/-- Witness for `start_indexing_conflict_no_mutation`: a mid-run status is
returned untouched. -/
theorem start_indexing_conflict_no_mutation_witness :
    start_indexing wExists wRunningStatus (some "imgs")
      = (.conflict "Indexing already in progress", wRunningStatus, false) :=
  start_indexing_conflict_no_mutation wExists wRunningStatus (some "imgs") rfl

/-- **C3**: when the requested folder does not exist, the start-indexing
request mutates no state (the status is returned unchanged and no thread is
launched, whatever the current state), and whenever the request reaches the
folder check (no job running — a running job is rejected earlier with the
conflict response) it fails with the not-found response before any reset of
the job state. -/
theorem start_indexing_missing_folder (folderExists : String → Bool)
    (st : IndexingStatus) (folderArg : Option String)
    (h2 : folderExists (folderArg.getD "./scraped_images") = false) :
    (st.is_indexing = false →
      start_indexing folderExists st folderArg
        = (.notFound ("Folder not found: " ++ folderArg.getD "./scraped_images"),
            st, false)) ∧
    (start_indexing folderExists st folderArg).2.1 = st ∧
    (start_indexing folderExists st folderArg).2.2 = false := by
  refine ⟨fun h1 => by simp [start_indexing, h1, h2], ?_, ?_⟩
  · by_cases h1 : st.is_indexing <;> simp [start_indexing, h1, h2]
  · by_cases h1 : st.is_indexing <;> simp [start_indexing, h1, h2]

/-- Witness for `start_indexing_missing_folder`. -/
theorem start_indexing_missing_folder_witness :
    start_indexing wNotExists initialStatus (some "missing")
      = (.notFound ("Folder not found: " ++ "missing"), initialStatus, false) :=
  (start_indexing_missing_folder wNotExists initialStatus (some "missing") rfl).1 rfl

/-- **C4** (counterexample): on an accepted start request the status reset
performed before `Start` returns leaves `start_time` absent (`None`), so the
claim that `started_at` equals the current time at reset is false; the
background job sets it later. -/
theorem start_indexing_start_time_cex :
    (start_indexing wExists initialStatus (some "imgs")).2.1.start_time = none ∧
    (start_indexing wExists initialStatus (some "imgs")).1
      = .ok "Indexing started" resetStatus := by
  decide

/-- **C4** (amended): an accepted start request resets the job state before
returning, with `is_running = true`, `processed = 0`, `total = 0`, a
"starting" message and `started_at` cleared to absent; `started_at` is set
to the current clock reading by the background job when it begins. -/
theorem start_indexing_accept_reset (folderExists : String → Bool)
    (st : IndexingStatus) (folderArg : Option String)
    (h1 : st.is_indexing = false)
    (h2 : folderExists (folderArg.getD "./scraped_images") = true) :
    start_indexing folderExists st folderArg
      = (.ok "Indexing started" resetStatus, resetStatus, true) ∧
    resetStatus.is_indexing = true ∧ resetStatus.progress = 0 ∧
    resetStatus.total = 0 ∧ resetStatus.message = "Starting indexing..." ∧
    resetStatus.start_time = none ∧
    (∀ (embed : FsPath → Option (List ℚ)) (fsRead : FsPath → Option String)
       (clock : ℕ → ℚ) (fs : List FsPath),
      (index_images_background embed fsRead clock fs resetStatus).status.start_time
        = some (clock 0)) := by
  refine ⟨by simp [start_indexing, h1, h2], rfl, rfl, rfl, rfl, rfl, ?_⟩
  intro e r c fsl
  exact run_start_time e r c fsl resetStatus

/-- Witness for `start_indexing_accept_reset`. -/
theorem start_indexing_accept_reset_witness :
    start_indexing wExists initialStatus (some "imgs")
      = (.ok "Indexing started" resetStatus, resetStatus, true) ∧
    (index_images_background wEmbed wRead wClock wFs resetStatus).status.start_time
      = some (wClock 0) := by
  have h := start_indexing_accept_reset wExists initialStatus (some "imgs") rfl rfl
  exact ⟨h.1, h.2.2.2.2.2.2 wEmbed wRead wClock wFs⟩

/-- **C9**: a search request whose query is empty (absent key or empty
string) is rejected with the validation error; no embedding call and no
store search are made. -/
theorem search_empty_query (embedText : String → List ℚ)
    (storeSearch : List ℚ → ℕ → List Hit)
    (queryArg : Option String) (topKArg : Option ℕ)
    (h : queryArg.getD "" = "") :
    search embedText storeSearch queryArg topKArg
      = (.badRequest "Query is required", 0, 0) := by
  simp [search, h]

/-- Witness for `search_empty_query`. -/
theorem search_empty_query_witness :
    search wEmbedText wStoreSearch (some "") none
      = (.badRequest "Query is required", 0, 0) :=
  search_empty_query wEmbedText wStoreSearch (some "") none rfl

/-- **C5**: a file sitting directly under the scanned root with a matching
extension is matched by both the direct and the recursive search, yet
appears exactly once in the scanned item sequence (deduplication). -/
theorem image_files_dedup_once (fs : List FsPath) (p : FsPath)
    (hMem : p ∈ fs) (hDir : p.dirs = [])
    (hExt : p.ext = ".jpg" ∨ p.ext = ".jpeg" ∨ p.ext = ".png") :
    p ∈ glob fs p.ext ∧ p ∈ rglob fs p.ext ∧ (image_files fs).count p = 1 := by
  refine ⟨?_, ?_, ?_⟩
  · simp [glob, List.mem_filter, hMem, hDir]
  · simp [rglob, List.mem_filter, hMem]
  · have hnd : (image_files fs).Nodup := List.nodup_dedup _
    have hin : p ∈ image_files fs := by
      unfold image_files
      rw [List.mem_dedup]
      rcases hExt with h | h | h <;>
        simp [glob, rglob, List.mem_filter, hMem, hDir, h]
    exact List.count_eq_one_of_mem hnd hin

/-- Witness for `image_files_dedup_once`. -/
theorem image_files_dedup_once_witness :
    (image_files wFs).count ⟨[], "a", ".jpg"⟩ = 1 :=
  (image_files_dedup_once wFs ⟨[], "a", ".jpg"⟩ (by decide) rfl (Or.inl rfl)).2.2

/-- **C6**: the description of a catalog item is read from the sibling file
with the same stem and extension `.txt`; an absent/unreadable file (`none`)
or content that is empty after trimming yields the sentinel
`"No description"`, non-empty content yields the trimmed text, and
`read_description` is a total function (never an error).  Every record a run
upserts carries the description read from its item's `.txt` sibling. -/
theorem read_description_spec (fsRead : FsPath → Option String) (p : FsPath) :
    (fsRead (p.withSuffix ".txt") = none →
      read_description fsRead (p.withSuffix ".txt") = "No description") ∧
    (∀ c, fsRead (p.withSuffix ".txt") = some c → pyStrip c = "" →
      read_description fsRead (p.withSuffix ".txt") = "No description") ∧
    (∀ c, fsRead (p.withSuffix ".txt") = some c → pyStrip c ≠ "" →
      read_description fsRead (p.withSuffix ".txt") = pyStrip c) ∧
    (∀ (embed : FsPath → Option (List ℚ)) (clock : ℕ → ℚ)
       (fs : List FsPath) (st0 : IndexingStatus) (pt : PointStruct),
      pt ∈ flushedPoints (index_images_background embed fsRead clock fs st0) →
      ∃ f, (image_files fs)[pt.id]? = some f ∧
        pt.description = read_description fsRead (f.withSuffix ".txt")) := by
  refine ⟨fun h => by simp [read_description, h], ?_, ?_, ?_⟩
  · intro c hc ht
    simp [read_description, hc, ht]
  · intro c hc ht
    simp [read_description, hc, ht]
  · intro e c fs st0 pt hmem
    rw [run_flushedPoints] at hmem
    obtain ⟨j, f, v, hj, hid, _, hpt⟩ :=
      successFrom_mem_spec e fsRead (image_files fs) 0 pt hmem
    refine ⟨f, ?_, ?_⟩
    · rw [show pt.id = j by omega]
      exact hj
    · rw [hpt]
      rfl

/-- Witness for `read_description_spec`: absent sidecar, whitespace-only
sidecar, and a sidecar with surrounding whitespace. -/
theorem read_description_spec_witness :
    read_description wRead (FsPath.withSuffix ⟨[], "z", ".jpg"⟩ ".txt") = "No description" ∧
    read_description wRead (FsPath.withSuffix ⟨[], "c", ".jpeg"⟩ ".txt") = "No description" ∧
    read_description wRead (FsPath.withSuffix ⟨[], "a", ".jpg"⟩ ".txt") = "hello" := by
  refine ⟨?_, ?_, ?_⟩
  · exact (read_description_spec wRead ⟨[], "z", ".jpg"⟩).1 (by decide)
  · exact (read_description_spec wRead ⟨[], "c", ".jpeg"⟩).2.1 "   " (by decide) (by decide)
  · have h := (read_description_spec wRead ⟨[], "a", ".jpg"⟩).2.2.1 "  hello "
      (by decide) (by decide)
    rw [h]
    decide

/-- **C7**: the ETA estimator returns the `"Calculating..."` sentinel when
`processed = 0`; otherwise, with `rate = processed / elapsed` and
`remaining = (total - processed) / rate`, it formats seconds when
`remaining < 60`, minutes when `remaining < 3600`, and hours plus minutes
otherwise (all numbers truncated as Python `int()` does). -/
theorem estimate_time_remaining_spec (progress total : ℕ) (elapsed : ℚ)
    (rate remaining : ℚ) (hrate : rate = (progress : ℚ) / elapsed)
    (hrem : remaining = ((total : ℚ) - (progress : ℚ)) / rate) :
    (progress = 0 → estimate_time_remaining progress total elapsed = "Calculating...") ∧
    (progress ≠ 0 → remaining < 60 →
      estimate_time_remaining progress total elapsed
        = toString (pyInt remaining) ++ "s remaining") ∧
    (progress ≠ 0 → 60 ≤ remaining → remaining < 3600 →
      estimate_time_remaining progress total elapsed
        = toString (pyInt (remaining / 60)) ++ "m remaining") ∧
    (progress ≠ 0 → 3600 ≤ remaining →
      estimate_time_remaining progress total elapsed
        = toString (pyInt (remaining / 3600)) ++ "h "
          ++ toString (pyInt (pyMod remaining 3600 / 60)) ++ "m remaining") := by
  subst hrate
  subst hrem
  refine ⟨fun h => by simp [estimate_time_remaining, h], ?_, ?_, ?_⟩
  · intro h h60
    simp [estimate_time_remaining, h, h60]
  · intro h h60 h3600
    simp [estimate_time_remaining, h, h3600, not_lt.mpr h60]
  · intro h h3600
    have h60 : ¬ ((total : ℚ) - (progress : ℚ)) / ((progress : ℚ) / elapsed) < 60 :=
      not_lt.mpr (le_trans (by norm_num) h3600)
    simp [estimate_time_remaining, h, h60, not_lt.mpr h3600]

/-- **C1** (counterexample): a completed run over one discovered item whose
embed fails ends with `processed = 0` but `total = 1`, so the final
processed count does not equal the total count; the embed-failure path
(`continue`) skips the progress update. -/
theorem run_progress_ne_total_cex :
    (index_images_background wEmbedFail wRead wClock cexFs initialStatus).status.progress = 0 ∧
    (index_images_background wEmbedFail wRead wClock cexFs initialStatus).status.total = 1 ∧
    ¬ ((index_images_background wEmbedFail wRead wClock cexFs initialStatus).status.progress
        = (index_images_background wEmbedFail wRead wClock cexFs initialStatus).status.total) := by
  decide

/-- **C1** (amended): for every completed run, successes plus skipped
errors equals the total count of discovered items (every item accounted for
exactly once); on an embed failure the error counter is incremented and no
record is appended for the item (records plus errors also equal the total);
the final processed count equals the total count provided the last
discovered item embeds successfully (a trailing failure leaves it below the
total, since the failure path skips the progress update). -/
theorem run_accounting (embed : FsPath → Option (List ℚ)) (fsRead : FsPath → Option String)
    (clock : ℕ → ℚ) (fs : List FsPath) (st0 : IndexingStatus) :
    (image_files fs).countP (fun f => (embed f).isSome)
        + (index_images_background embed fsRead clock fs st0).errors
      = (index_images_background embed fsRead clock fs st0).status.total ∧
    (index_images_background embed fsRead clock fs st0).errors
      = (image_files fs).countP (fun f => (embed f).isNone) ∧
    (flushedPoints (index_images_background embed fsRead clock fs st0)).length
        + (index_images_background embed fsRead clock fs st0).errors
      = (index_images_background embed fsRead clock fs st0).status.total ∧
    (∀ f, (image_files fs).getLast? = some f → (embed f).isSome = true →
      (index_images_background embed fsRead clock fs st0).status.progress
        = (index_images_background embed fsRead clock fs st0).status.total) := by
  refine ⟨?_, run_errors embed fsRead clock fs st0, ?_, ?_⟩
  · rw [run_errors, run_total]
    exact countP_isSome_add_isNone embed (image_files fs)
  · rw [run_flushedPoints, run_errors, run_total,
      successFrom_length embed fsRead (image_files fs) 0,
      ← List.countP_eq_length_filter]
    exact countP_isSome_add_isNone embed (image_files fs)
  · intro f hlast hsome
    rw [run_progress_last embed fsRead clock fs st0 f hlast hsome, run_total]

/-- Witness for `run_accounting`: a three-item run with one failing embed;
the last item succeeds, so the processed count reaches the total. -/
theorem run_accounting_witness :
    (index_images_background wEmbed wRead wClock wFs initialStatus).errors = 1 ∧
    (index_images_background wEmbed wRead wClock wFs initialStatus).status.progress
      = (index_images_background wEmbed wRead wClock wFs initialStatus).status.total := by
  have h := run_accounting wEmbed wRead wClock wFs initialStatus
  refine ⟨?_, ?_⟩
  · rw [h.2.1]
    decide
  · exact h.2.2.2 ⟨["sub"], "b", ".png"⟩ (by decide) (by decide)

/-- **C8**: the points a run upserts (the batches flushed at size 100 plus
the final flush of any non-empty remainder) are exactly the records of the
successfully embedded items, in order; hence every successfully embedded
record is upserted exactly once. -/
theorem run_upsert_exactly_once (embed : FsPath → Option (List ℚ))
    (fsRead : FsPath → Option String) (clock : ℕ → ℚ)
    (fs : List FsPath) (st0 : IndexingStatus) :
    flushedPoints (index_images_background embed fsRead clock fs st0)
      = successFrom embed fsRead (List.enumFrom 0 (image_files fs)) ∧
    (∀ pt ∈ successFrom embed fsRead (List.enumFrom 0 (image_files fs)),
      (flushedPoints (index_images_background embed fsRead clock fs st0)).count pt = 1) := by
  refine ⟨run_flushedPoints embed fsRead clock fs st0, ?_⟩
  intro pt hpt
  rw [run_flushedPoints]
  have hnd : (successFrom embed fsRead (List.enumFrom 0 (image_files fs))).Nodup :=
    List.Nodup.of_map PointStruct.id (successFrom_ids_nodup embed fsRead (image_files fs) 0)
  exact List.count_eq_one_of_mem hnd hpt

/-- Witness for `run_upsert_exactly_once`. -/
theorem run_upsert_exactly_once_witness :
    (flushedPoints (index_images_background wEmbed wRead wClock wFs initialStatus)).count
      (mkPoint wRead 0 ⟨[], "a", ".jpg"⟩ [1, 0]) = 1 :=
  (run_upsert_exactly_once wEmbed wRead wClock wFs initialStatus).2
    (mkPoint wRead 0 ⟨[], "a", ".jpg"⟩ [1, 0]) (by decide)

/-- **C10**: the id stored for each successfully embedded item is its
zero-based position in the run's scan sequence (the ids of the flushed
records are exactly the enumeration indices of the successful items, so
they are unique within one run and failed items leave gaps); each record is
`mkPoint` of the file found at that position; and upserting a run's records
into any store (in particular one already holding an earlier run's records)
overwrites by id, leaving the run's own record at each of its ids. -/
theorem run_ids_positional (embed : FsPath → Option (List ℚ))
    (fsRead : FsPath → Option String) (clock : ℕ → ℚ)
    (fs : List FsPath) (st0 : IndexingStatus) :
    (flushedPoints (index_images_background embed fsRead clock fs st0)).map PointStruct.id
      = ((List.enumFrom 0 (image_files fs)).filter
          (fun p => (embed p.2).isSome)).map Prod.fst ∧
    ((flushedPoints (index_images_background embed fsRead clock fs st0)).map
        PointStruct.id).Nodup ∧
    (∀ pt ∈ flushedPoints (index_images_background embed fsRead clock fs st0),
      ∃ f v, (image_files fs)[pt.id]? = some f ∧ embed f = some v ∧
        pt = mkPoint fsRead pt.id f v) ∧
    (∀ (store : ℕ → Option PointStruct) (pt : PointStruct),
      pt ∈ flushedPoints (index_images_background embed fsRead clock fs st0) →
      runUpserts store (index_images_background embed fsRead clock fs st0) pt.id
        = some pt) := by
  have hf := run_flushedPoints embed fsRead clock fs st0
  refine ⟨?_, ?_, ?_, ?_⟩
  · rw [hf]
    exact successFrom_ids_eq embed fsRead _
  · rw [hf]
    exact successFrom_ids_nodup embed fsRead (image_files fs) 0
  · intro pt hpt
    rw [hf] at hpt
    obtain ⟨j, f, v, hj, hid, hv, hpt2⟩ :=
      successFrom_mem_spec embed fsRead (image_files fs) 0 pt hpt
    refine ⟨f, v, ?_, hv, hpt2⟩
    rw [show pt.id = j by omega]
    exact hj
  · intro store pt hpt
    rw [runUpserts_eq_flatten]
    refine upsertPoints_mem _ _ pt ?_ hpt
    have := successFrom_ids_nodup embed fsRead (image_files fs) 0
    rw [← hf] at this
    exact this

/-- Witness for `run_ids_positional`: the record for the item at position 0
ends up stored under id 0. -/
theorem run_ids_positional_witness :
    runUpserts wStore (index_images_background wEmbed wRead wClock wFs initialStatus)
      (mkPoint wRead 0 ⟨[], "a", ".jpg"⟩ [1, 0]).id
      = some (mkPoint wRead 0 ⟨[], "a", ".jpg"⟩ [1, 0]) :=
  (run_ids_positional wEmbed wRead wClock wFs initialStatus).2.2.2 wStore
    (mkPoint wRead 0 ⟨[], "a", ".jpg"⟩ [1, 0]) (by decide)

/-- Witness for `estimate_time_remaining_spec`: all four branches at
concrete inputs. -/
theorem estimate_time_remaining_spec_witness :
    estimate_time_remaining 0 10 4 = "Calculating..." ∧
    estimate_time_remaining 2 10 4 = "16s remaining" ∧
    estimate_time_remaining 1 100 1 = "1m remaining" ∧
    estimate_time_remaining 1 8000 1 = "2h 13m remaining" := by
  refine ⟨?_, ?_, ?_, ?_⟩
  · exact (estimate_time_remaining_spec 0 10 4 0 0 (by norm_num) (by norm_num)).1 rfl
  · have h := (estimate_time_remaining_spec 2 10 4 (1 / 2) 16
      (by norm_num) (by norm_num)).2.1 (by decide) (by norm_num)
    rw [h]
    have h16 : pyInt 16 = 16 := by
      unfold pyInt
      rw [if_pos (by norm_num : (0 : ℚ) ≤ 16)]
      norm_num
    rw [h16]
    rfl
  · have h := (estimate_time_remaining_spec 1 100 1 1 99
      (by norm_num) (by norm_num)).2.2.1 (by decide) (by norm_num) (by norm_num)
    rw [h]
    have h99 : pyInt (99 / 60) = 1 := by
      unfold pyInt
      rw [if_pos (by norm_num : (0 : ℚ) ≤ 99 / 60)]
      apply Int.floor_eq_iff.mpr
      constructor <;> norm_num
    rw [h99]
    rfl
  · have h := (estimate_time_remaining_spec 1 8000 1 1 7999
      (by norm_num) (by norm_num)).2.2.2 (by decide) (by norm_num)
    rw [h]
    have hfl : ⌊(7999 : ℚ) / 3600⌋ = 2 := by
      apply Int.floor_eq_iff.mpr
      constructor <;> norm_num
    have hA : pyInt ((7999 : ℚ) / 3600) = 2 := by
      unfold pyInt
      rw [if_pos (by norm_num : (0 : ℚ) ≤ 7999 / 3600)]
      exact hfl
    have hB : pyMod 7999 3600 = 799 := by
      unfold pyMod
      rw [hfl]
      norm_num
    have hC : pyInt ((799 : ℚ) / 60) = 13 := by
      unfold pyInt
      rw [if_pos (by norm_num : (0 : ℚ) ≤ 799 / 60)]
      apply Int.floor_eq_iff.mpr
      constructor <;> norm_num
    rw [hA, hB, hC]
    rfl
